import Mathlib

/-!
# Clipboard shim (clipboard_darwin.go): read, write, watch

A shallow embedding of the three operations of the darwin clipboard shim.
The native clipboard service is a parameter: a record of the five entry
points declared in the cgo preamble, acting on an abstract world state.
The two goroutines (the change poller started by `write`, the polling task
started by `watch`) are small-step machines whose steps run the goroutine
up to its next blocking point.
-/

namespace Clipboard

/-! ## Data model -/

/-- A byte of a Go byte slice. -/
abbrev Byte := Fin 256

/-- Modelled from the spec: the Format type is declared outside
clipboard_darwin.go; it is an integer-valued discriminator. -/
abbrev Format := Int

/-- Modelled from the spec: the constant for the plain-text format, the first
of the two enumerated values. -/
def FmtText : Format := 0

/-- Modelled from the spec: the constant for the image format, the second of
the two enumerated values. -/
def FmtImage : Format := 1

/-- The number of values of a C unsigned int. -/
def UINT_MOD : Nat := 4294967296

/-- A natural number stored in a C.uint. -/
def cuint (n : Nat) : Nat := n % UINT_MOD

/-- The Go conversion C.int(n) of a C.uint: the same 32 bits read as a signed
integer. -/
def toCInt (n : Nat) : Int :=
  if cuint n < 2147483648 then (cuint n : Int) else (cuint n : Int) - 4294967296

/-- The outcome of Go code that may panic. -/
inductive GoResult (α : Type) where
  | ok (val : α)
  | panic
  deriving DecidableEq

/-- What a native read hands back: the out-pointer (none is NULL, otherwise
the memory it points to, addressed from offset 0) and the returned length. -/
structure NativeRead where
  data : Option (Nat → Byte)
  n : Nat

/-- The native entry points of the cgo preamble, as functions on the state of
the native clipboard service. A pointer argument is none for a nil pointer
and otherwise the bytes it points to. -/
structure Native (σ : Type) where
  clipboard_read_string : σ → NativeRead × σ
  clipboard_read_image : σ → NativeRead × σ
  clipboard_write_string : Option (List Byte) → Int → σ → Int × σ
  clipboard_write_image : Option (List Byte) → Int → σ → Int × σ
  clipboard_change_count : σ → Int × σ

/-- The first n bytes of the memory a pointer refers to. -/
def firstBytes (mem : Nat → Byte) (n : Nat) : List Byte :=
  (List.range n).map mem

/-- The cgo helper C.GoBytes(p, n): a fresh slice holding the n bytes at p;
the runtime panics on a negative length. -/
def GoBytes (mem : Nat → Byte) (n : Int) : GoResult (List Byte) :=
  if n < 0 then .panic else .ok (firstBytes mem n.toNat)

/-! ## Channels -/

/-- A Go channel with a buffer of `cap` slots: the buffered values, the closed
flag, and (ghost) the history of every value ever sent. -/
structure Chan (α : Type) where
  cap : Nat
  buf : List α
  closed : Bool
  hist : List α
  deriving DecidableEq

/-- The outcome of attempting a send with no receiver waiting. -/
inductive SendResult (α : Type) where
  | sent (c : Chan α)
  | block
  | panic
  deriving DecidableEq

/-- The channel created by make(chan T, cap). -/
def Chan.make {α : Type} (cap : Nat) : Chan α :=
  { cap := cap, buf := [], closed := false, hist := [] }

/-- A send: panics on a closed channel, completes when the buffer has a free
slot, and blocks otherwise. -/
def Chan.send {α : Type} (c : Chan α) (v : α) : SendResult α :=
  if c.closed then .panic
  else if c.buf.length < c.cap then .sent { c with buf := c.buf ++ [v], hist := c.hist ++ [v] }
  else .block

/-- The builtin close(c). -/
def Chan.close {α : Type} (c : Chan α) : Chan α :=
  { c with closed := true }

/-- A receive by the consumer: takes the oldest buffered value, if any. -/
def Chan.recv {α : Type} (c : Chan α) : Chan α :=
  { c with buf := c.buf.tail }

/-! ## read -/

/-- The switch at the head of read: the native call made for the format; the
out-pointer and the length keep their zero values when no case matches. -/
def readCall {σ : Type} (N : Native σ) (t : Format) (s : σ) : NativeRead × σ :=
  if t = FmtText then N.clipboard_read_string s
  else if t = FmtImage then N.clipboard_read_image s
  else ({ data := none, n := 0 }, s)

/-- The function read of clipboard_darwin.go. The result is none for a nil
slice. -/
def read {σ : Type} (N : Native σ) (t : Format) (s : σ) :
    GoResult (Option (List Byte)) × σ :=
  let r : NativeRead × σ := readCall N t s
  match r.1.data with
  | none => (.ok none, r.2)
  | some mem =>
    if cuint r.1.n = 0 then (.ok none, r.2)
    else
      match GoBytes mem (toCInt r.1.n) with
      | .ok b => (.ok (some b), r.2)
      | .panic => (.panic, r.2)

/-- Modelled from the spec: the exported Read(format) is declared outside
clipboard_darwin.go; the spec lists it as the public surface of read. -/
def Read {σ : Type} (N : Native σ) (t : Format) (s : σ) :
    GoResult (Option (List Byte)) × σ :=
  read N t s

/-! ## write and its change poller -/

/-- Where the change poller goroutine stands. -/
inductive PollPc where
  | sleeping
  | sending
  | returned
  | panicked
  deriving DecidableEq

/-- The goroutine started by write: the captured counter, the notification
channel, the control point, and (ghost) the counter values it has observed. -/
structure Poller where
  cnt : Int
  changed : Chan Unit
  pc : PollPc
  seen : List Int
  deriving DecidableEq

/-- What write returns, the goroutine it started, and the native state it
leaves. The channel result is none for a nil channel. -/
structure WriteResult (σ : Type) where
  ok : Bool
  changed : Option (Chan Unit)
  task : Option Poller
  world : σ

/-- The switch at the head of write: the native call made for the format, with
its status; the status variable keeps its zero value when no case matches. -/
def writeCall {σ : Type} (N : Native σ) (t : Format) (buf : List Byte) (s : σ) : Int × σ :=
  if t = FmtText then
    if buf.length = 0 then N.clipboard_write_string none 0 s
    else N.clipboard_write_string (some buf) (buf.length : Int) s
  else if t = FmtImage then
    if buf.length = 0 then N.clipboard_write_image none 0 s
    else N.clipboard_write_image (some buf) (buf.length : Int) s
  else (0, s)

/-- The function write of clipboard_darwin.go, up to its return. -/
def write {σ : Type} (N : Native σ) (t : Format) (buf : List Byte) (s : σ) :
    WriteResult σ :=
  let r : Int × σ := writeCall N t buf s
  if r.1 ≠ 0 then
    { ok := false, changed := none, task := none, world := r.2 }
  else
    let changed : Chan Unit := Chan.make 1
    let c := N.clipboard_change_count r.2
    { ok := true, changed := some changed,
      task := some { cnt := c.1, changed := changed, pc := .sleeping, seen := [] },
      world := c.2 }

/-- The send and close at the end of the poller, from the send onwards. -/
def Poller.signal (p : Poller) : Poller :=
  match p.changed.send () with
  | .sent c => { p with changed := c.close, pc := .returned }
  | .block => { p with pc := .sending }
  | .panic => { p with pc := .panicked }

/-- One scheduling of the poller goroutine: it wakes from its sleep, reads the
counter and, when it differs, signals; a poller blocked in the send retries. -/
def pollStep {σ : Type} (N : Native σ) (p : Poller) (s : σ) : Poller × σ :=
  match p.pc with
  | .sleeping =>
    let c := N.clipboard_change_count s
    let p1 := { p with seen := p.seen ++ [c.1] }
    if p.cnt ≠ c.1 then (p1.signal, c.2) else (p1, c.2)
  | .sending => (p.signal, s)
  | .returned => (p, s)
  | .panicked => (p, s)

/-- What can happen around the poller: it is scheduled, the holder of the
channel receives, or the clipboard is changed from outside. -/
inductive PollEvent (σ : Type) where
  | wake
  | consume
  | env (f : σ → σ)

/-- One event applied to the poller and the native state. -/
def pollEvent {σ : Type} (N : Native σ) (ps : Poller × σ) (e : PollEvent σ) : Poller × σ :=
  match e with
  | .wake => pollStep N ps.1 ps.2
  | .consume => ({ ps.1 with changed := ps.1.changed.recv }, ps.2)
  | .env f => (ps.1, f ps.2)

/-- A run of the poller along a schedule of events. -/
def pollRun {σ : Type} (N : Native σ) (p : Poller) (s : σ) (evs : List (PollEvent σ)) :
    Poller × σ :=
  evs.foldl (pollEvent N) (p, s)

/-! ## watch -/

/-- Where the watch goroutine stands: before its first statement, blocked in
the select, blocked in the send of a snapshot read at counter value `this`,
returned, or stopped by a panic of Read. -/
inductive WatchPc where
  | init
  | selecting
  | sending (b : List Byte) (this : Int)
  | returned
  | panicked
  deriving DecidableEq

/-- The goroutine started by watch: the last observed counter, the output
channel, the control point, and (ghost) the counter values observed at the
ticks so far. -/
structure Watcher where
  lastCount : Int
  recv : Chan (List Byte)
  pc : WatchPc
  seen : List Int
  deriving DecidableEq

/-- The case a select takes. -/
inductive SelectCase where
  | done
  | tick
  deriving DecidableEq

/-- The function watch of clipboard_darwin.go, up to its return: the channel
is made and the goroutine is started, not yet run. -/
def watch (_t : Format) : Watcher :=
  { lastCount := 0, recv := Chan.make 1, pc := .init, seen := [] }

/-- The send of a snapshot followed by the update of the last observed
counter. -/
def Watcher.deliver (w : Watcher) (b : List Byte) (this : Int) : Watcher :=
  match w.recv.send b with
  | .sent c => { w with recv := c, lastCount := this, pc := .selecting }
  | .block => { w with pc := .sending b this }
  | .panic => { w with pc := .panicked }

/-- One scheduling of the watch goroutine, run up to its next blocking point.
At the select, `sel` is the case taken: the cancellation case can be taken
only once the context is cancelled, the ticker case stands for a tick that
has arrived. -/
def watchStep {σ : Type} (N : Native σ) (t : Format) (cancelled : Bool) (sel : SelectCase)
    (w : Watcher) (s : σ) : Watcher × σ :=
  match w.pc with
  | .init =>
    let c := N.clipboard_change_count s
    ({ w with lastCount := c.1, pc := .selecting }, c.2)
  | .selecting =>
    match sel with
    | .done =>
      if cancelled then ({ w with recv := w.recv.close, pc := .returned }, s) else (w, s)
    | .tick =>
      let c := N.clipboard_change_count s
      let w1 := { w with seen := w.seen ++ [c.1] }
      if w.lastCount ≠ c.1 then
        match Read N t c.2 with
        | (.panic, s2) => ({ w1 with pc := .panicked }, s2)
        | (.ok none, s2) => (w1, s2)
        | (.ok (some b), s2) => (w1.deliver b c.1, s2)
      else (w1, c.2)
  | .sending b this => (w.deliver b this, s)
  | .returned => (w, s)
  | .panicked => (w, s)

/-- The watch goroutine with its surroundings: the cancellation signal and the
native state. -/
structure WatchSys (σ : Type) where
  task : Watcher
  cancelled : Bool
  world : σ

/-- What can happen around a watch: the goroutine is scheduled (with the
select case it takes), the context is cancelled, the consumer receives, or
the clipboard is changed from outside. -/
inductive WatchEvent (σ : Type) where
  | run (sel : SelectCase)
  | cancel
  | consume
  | env (f : σ → σ)

/-- One event applied to a watch. -/
def watchEvent {σ : Type} (N : Native σ) (t : Format) (x : WatchSys σ) (e : WatchEvent σ) :
    WatchSys σ :=
  match e with
  | .run sel =>
    let r := watchStep N t x.cancelled sel x.task x.world
    { x with task := r.1, world := r.2 }
  | .cancel => { x with cancelled := true }
  | .consume => { x with task := { x.task with recv := x.task.recv.recv } }
  | .env f => { x with world := f x.world }

/-- A run of a watch along a schedule of events. -/
def watchRun {σ : Type} (N : Native σ) (t : Format) (x : WatchSys σ)
    (evs : List (WatchEvent σ)) : WatchSys σ :=
  evs.foldl (watchEvent N t) x

/-- Whether an event is a receive by the consumer. -/
def WatchEvent.isConsume {σ : Type} (e : WatchEvent σ) : Bool :=
  match e with
  | .consume => true
  | _ => false

/-! ## A native store for concrete runs -/

/-- Modelled from the spec: the state of the native clipboard service, whose
code is outside clipboard_darwin.go: the content stored under each of the two
formats and the change counter. -/
structure Store where
  text : Option (List Byte)
  image : Option (List Byte)
  changes : Int
  deriving DecidableEq

/-- Modelled from the spec: what a native read hands back for a stored
content: nothing when nothing is present, otherwise a buffer holding the
content and its length. -/
def Store.fetch (slot : Option (List Byte)) : NativeRead :=
  match slot with
  | none => { data := none, n := 0 }
  | some b => { data := some (fun i => b.getD i 0), n := b.length }

/-- Modelled from the spec: the content a native write stores: the n bytes at
the pointer; an empty payload clears. -/
def Store.payload (p : Option (List Byte)) (n : Int) : Option (List Byte) :=
  match p with
  | none => none
  | some b => if n ≤ 0 then none else some (b.take n.toNat)

/-- Modelled from the spec: the native clipboard service: a write stores the
content under its format, bumps the change counter and reports status 0; a
read hands back what is stored; the change count is the counter. -/
def storeNative : Native Store :=
  { clipboard_read_string := fun s => (Store.fetch s.text, s)
    clipboard_read_image := fun s => (Store.fetch s.image, s)
    clipboard_write_string := fun p n s =>
      (0, { s with text := Store.payload p n, changes := s.changes + 1 })
    clipboard_write_image := fun p n s =>
      (0, { s with image := Store.payload p n, changes := s.changes + 1 })
    clipboard_change_count := fun s => (s.changes, s) }

/-- The empty native store. -/
def Store.empty : Store :=
  { text := none, image := none, changes := 0 }

/-- A native service that rejects every write and holds nothing. -/
def rejectingNative : Native Unit :=
  { clipboard_read_string := fun s => ({ data := none, n := 0 }, s)
    clipboard_read_image := fun s => ({ data := none, n := 0 }, s)
    clipboard_write_string := fun _ _ s => (-1, s)
    clipboard_write_image := fun _ _ s => (-1, s)
    clipboard_change_count := fun s => (0, s) }

/-- A native service whose reads hand back a fixed buffer and length. -/
def fixedNative (r : NativeRead) : Native Unit :=
  { clipboard_read_string := fun s => (r, s)
    clipboard_read_image := fun s => (r, s)
    clipboard_write_string := fun _ _ s => (0, s)
    clipboard_write_image := fun _ _ s => (0, s)
    clipboard_change_count := fun s => (0, s) }

/-! ## The native law of the write-read round trip -/

/-- A native read result that yields the bytes b: a buffer is handed back, its
length is the length of b, and its first bytes are b. -/
def Yields (r : NativeRead) (b : List Byte) : Prop :=
  ∃ mem, r.data = some mem ∧ r.n = b.length ∧ firstBytes mem b.length = b

/-- The law of a native store in which a successful native write of a
non-empty b under a format makes the native read of that format yield b, as
write and read use them: the change count is queried in between. -/
def WriteReadLaw {σ : Type} (N : Native σ) : Prop :=
  ∀ (t : Format) (b : List Byte) (s : σ), (t = FmtText ∨ t = FmtImage) → b ≠ [] →
    (writeCall N t b s).1 = 0 →
    Yields (readCall N t (N.clipboard_change_count (writeCall N t b s).2).2).1 b

/-! ## Invariants of the runs of the two goroutines -/

/-- What holds of a poller started by write along every run: it is asleep
between polls, has signalled nothing and has seen only the captured value; or
it has returned, after one send and the close, at the first observed value
that differed. -/
def PollInv (cnt : Int) (p : Poller) : Prop :=
  p.cnt = cnt ∧ p.changed.cap = 1 ∧
  ((p.pc = .sleeping ∧ p.changed.hist = [] ∧ p.changed.buf = [] ∧
      p.changed.closed = false ∧ ∀ c ∈ p.seen, c = cnt) ∨
   (p.pc = .returned ∧ p.changed.hist = [()] ∧ p.changed.closed = true ∧
      ∃ pre c, p.seen = pre ++ [c] ∧ (∀ x ∈ pre, x = cnt) ∧ c ≠ cnt))

/-- Every element sent so far, and a snapshot waiting in a blocked send, is a
non-empty byte sequence. -/
def EmitsNonEmpty (w : Watcher) : Prop :=
  (∀ b ∈ w.recv.hist, b ≠ []) ∧ (∀ b c, w.pc = .sending b c → b ≠ [])

/-- While every value seen at a tick equals c0, the last observed counter is c0,
nothing has been sent and no send is pending. -/
def QuietInv (c0 : Int) (w : Watcher) : Prop :=
  w.pc ≠ .init ∧
  ((∃ c ∈ w.seen, c ≠ c0) ∨
   (w.lastCount = c0 ∧ w.recv.hist = [] ∧ ∀ b c, w.pc ≠ .sending b c))

/-! ## A schedule that ends in a blocked send -/

/-- A schedule on the store: the watch starts, a text is copied and a tick
sends it, a second text is copied and the next tick finds the one-slot channel
still full, then the context is cancelled. -/
def blockedSchedule : List (WatchEvent Store) :=
  [.run .tick,
   .env (fun s => (storeNative.clipboard_write_string (some [1]) 1 s).2),
   .run .tick,
   .env (fun s => (storeNative.clipboard_write_string (some [2]) 1 s).2),
   .run .tick,
   .cancel]

/-! ## Facts about read -/

theorem firstBytes_length (mem : Nat → Byte) (n : Nat) : (firstBytes mem n).length = n := by
  simp [firstBytes]

theorem cuint_of_lt (n : Nat) (h : n < 4294967296) : cuint n = n := by
  unfold cuint UINT_MOD
  exact Nat.mod_eq_of_lt h

theorem toCInt_of_small (n : Nat) (h : n < 2147483648) : toCInt n = (n : Int) := by
  have h1 : cuint n = n := cuint_of_lt n (by omega)
  unfold toCInt
  rw [h1]
  simp [h]

theorem toCInt_of_large (n : Nat) (h1 : 2147483648 ≤ n) (h2 : n < 4294967296) :
    toCInt n = (n : Int) - 4294967296 := by
  have h3 : cuint n = n := cuint_of_lt n h2
  unfold toCInt
  rw [h3]
  have : ¬ n < 2147483648 := by omega
  simp [this]

/-- The read of clipboard_darwin.go returns nil when the native call hands
back no buffer. -/
theorem read_no_buffer {σ : Type} (N : Native σ) (t : Format) (s : σ)
    (h : (readCall N t s).1.data = none) : read N t s = (.ok none, (readCall N t s).2) := by
  simp [read, h]

/-- The read of clipboard_darwin.go returns nil when the native call reports a
length of zero. -/
theorem read_zero_length {σ : Type} (N : Native σ) (t : Format) (s : σ)
    (h : cuint (readCall N t s).1.n = 0) : read N t s = (.ok none, (readCall N t s).2) := by
  cases hd : (readCall N t s).1.data with
  | none => simp [read, hd]
  | some mem => simp [read, hd, h]

/-- With a buffer and a length n, 0 < n < 2^31, read returns the first n bytes
of the buffer. -/
theorem read_buffer {σ : Type} (N : Native σ) (t : Format) (s : σ) (mem : Nat → Byte)
    (hd : (readCall N t s).1.data = some mem) (h0 : 0 < (readCall N t s).1.n)
    (h1 : (readCall N t s).1.n < 2147483648) :
    read N t s = (.ok (some (firstBytes mem (readCall N t s).1.n)), (readCall N t s).2) := by
  have hc : cuint (readCall N t s).1.n = (readCall N t s).1.n := cuint_of_lt _ (by omega)
  have hi : toCInt (readCall N t s).1.n = ((readCall N t s).1.n : Int) := toCInt_of_small _ h1
  have hne : ¬ (readCall N t s).1.n = 0 := by omega
  have hnn : ¬ (((readCall N t s).1.n : Int) < 0) := by omega
  simp [read, hd, hc, hi, hne, GoBytes, hnn]

/-- With a buffer and a length n, 2^31 ≤ n < 2^32, the conversion to C.int is
negative and read panics in C.GoBytes. -/
theorem read_buffer_large {σ : Type} (N : Native σ) (t : Format) (s : σ) (mem : Nat → Byte)
    (hd : (readCall N t s).1.data = some mem) (h1 : 2147483648 ≤ (readCall N t s).1.n)
    (h2 : (readCall N t s).1.n < 4294967296) :
    read N t s = (.panic, (readCall N t s).2) := by
  have hc : cuint (readCall N t s).1.n = (readCall N t s).1.n := cuint_of_lt _ h2
  have hi : toCInt (readCall N t s).1.n = ((readCall N t s).1.n : Int) - 4294967296 :=
    toCInt_of_large _ h1 h2
  have hne : ¬ (readCall N t s).1.n = 0 := by omega
  have hneg : ((readCall N t s).1.n : Int) - 4294967296 < 0 := by
    have : (((readCall N t s).1.n : Int)) < 4294967296 := by exact_mod_cast h2
    omega
  simp only [read, hd, hc, hi, hne, GoBytes, if_false, hneg, if_true]

/-- A slice read returns is never empty: it is nil or holds at least one
byte. -/
theorem read_some_nonempty {σ : Type} (N : Native σ) (t : Format) (s s2 : σ) (b : List Byte)
    (h : read N t s = (.ok (some b), s2)) : b ≠ [] := by
  unfold read at h
  cases hd : (readCall N t s).1.data with
  | none => simp [hd] at h
  | some mem =>
    simp only [hd] at h
    by_cases hz : cuint (readCall N t s).1.n = 0
    · simp [hz] at h
    · simp only [hz, if_false] at h
      unfold GoBytes at h
      by_cases hneg : toCInt (readCall N t s).1.n < 0
      · simp [hneg] at h
      · simp only [hneg, if_false] at h
        have hb : b = firstBytes mem (toCInt (readCall N t s).1.n).toNat := by
          simp at h
          exact h.1.symm
        have hpos : 0 < (toCInt (readCall N t s).1.n).toNat := by
          unfold toCInt at hneg ⊢
          by_cases hlt : cuint (readCall N t s).1.n < 2147483648
          · simp only [hlt, if_true] at hneg ⊢
            simp
            omega
          · simp only [hlt, if_false] at hneg ⊢
            have hu : cuint (readCall N t s).1.n < 4294967296 := by
              unfold cuint UINT_MOD
              exact Nat.mod_lt _ (by norm_num)
            have : ((cuint (readCall N t s).1.n : Nat) : Int) < 4294967296 := by exact_mod_cast hu
            omega
        intro hnil
        have hl := firstBytes_length mem (toCInt (readCall N t s).1.n).toNat
        rw [← hb, hnil] at hl
        simp at hl
        omega

/-! ## C3: what read returns -/

/-- C3 (failing input): the native read hands back a buffer with the length
2147483648; the conversion C.int(n) is negative, C.GoBytes panics, and read
returns no bytes at all, not the first n bytes of the buffer. -/
theorem read_panics_at_two_gib :
    read (fixedNative { data := some (fun _ => 0), n := 2147483648 }) FmtText ()
      = (.panic, ()) ∧
    read (fixedNative { data := some (fun _ => 0), n := 2147483648 }) FmtImage ()
      = (.panic, ()) ∧
    toCInt 2147483648 = -2147483648 := by
  refine ⟨?_, ?_, ?_⟩
  · exact read_buffer_large _ _ _ (fun _ => 0) rfl (by decide) (by decide)
  · exact read_buffer_large _ _ _ (fun _ => 0) rfl (by decide) (by decide)
  · decide

/-! ## Facts about write -/

theorem write_of_status_zero {σ : Type} (N : Native σ) (t : Format) (buf : List Byte) (s : σ)
    (h : (writeCall N t buf s).1 = 0) :
    write N t buf s =
      { ok := true, changed := some (Chan.make 1),
        task := some { cnt := (N.clipboard_change_count (writeCall N t buf s).2).1,
                       changed := Chan.make 1, pc := .sleeping, seen := [] },
        world := (N.clipboard_change_count (writeCall N t buf s).2).2 } := by
  simp [write, h]

theorem write_of_status_nonzero {σ : Type} (N : Native σ) (t : Format) (buf : List Byte)
    (s : σ) (h : (writeCall N t buf s).1 ≠ 0) :
    write N t buf s =
      { ok := false, changed := none, task := none, world := (writeCall N t buf s).2 } := by
  simp [write, h]

theorem writeCall_other {σ : Type} (N : Native σ) (t : Format) (buf : List Byte) (s : σ)
    (h1 : t ≠ FmtText) (h2 : t ≠ FmtImage) : writeCall N t buf s = (0, s) := by
  simp [writeCall, h1, h2]

theorem readCall_other {σ : Type} (N : Native σ) (t : Format) (s : σ)
    (h1 : t ≠ FmtText) (h2 : t ≠ FmtImage) :
    readCall N t s = ({ data := none, n := 0 }, s) := by
  simp [readCall, h1, h2]

/-! ## C2: the status write reports -/

/-- C2: write returns false with a nil channel when the native write call
returns a nonzero status, returns true with a non-nil channel (freshly made,
one slot) when the status is zero, and returns false in no other case: a
false result comes from a nonzero status of the native call made for the
text or the image format. -/
theorem write_reports_native_status {σ : Type} (N : Native σ) (t : Format) (buf : List Byte)
    (s : σ) :
    ((writeCall N t buf s).1 ≠ 0 →
      (write N t buf s).ok = false ∧ (write N t buf s).changed = none ∧
      (write N t buf s).task = none) ∧
    ((writeCall N t buf s).1 = 0 →
      (write N t buf s).ok = true ∧ (write N t buf s).changed = some (Chan.make 1)) ∧
    ((write N t buf s).ok = false →
      (writeCall N t buf s).1 ≠ 0 ∧ (t = FmtText ∨ t = FmtImage)) ∧
    (t = FmtText → buf ≠ [] →
      writeCall N t buf s = N.clipboard_write_string (some buf) (buf.length : Int) s) ∧
    (t = FmtImage → buf ≠ [] →
      writeCall N t buf s = N.clipboard_write_image (some buf) (buf.length : Int) s) := by
  refine ⟨?_, ?_, ?_, ?_, ?_⟩
  · intro h
    rw [write_of_status_nonzero N t buf s h]
    exact ⟨rfl, rfl, rfl⟩
  · intro h
    rw [write_of_status_zero N t buf s h]
    exact ⟨rfl, rfl⟩
  · intro h
    by_cases hz : (writeCall N t buf s).1 = 0
    · rw [write_of_status_zero N t buf s hz] at h
      simp at h
    · refine ⟨hz, ?_⟩
      by_contra hne
      push_neg at hne
      exact hz (by rw [writeCall_other N t buf s hne.1 hne.2])
  · intro ht hb
    subst ht
    have : buf.length ≠ 0 := by
      intro h0
      exact hb (List.length_eq_zero.mp h0)
    simp [writeCall, this]
  · intro ht hb
    subst ht
    have : buf.length ≠ 0 := by
      intro h0
      exact hb (List.length_eq_zero.mp h0)
    have hne : FmtImage ≠ FmtText := by decide
    simp [writeCall, this, hne]

/-- C2 at a concrete input: the rejecting native makes write return false with
a nil channel, the store makes it return true with a channel. -/
theorem write_reports_native_status_witness :
    ((write rejectingNative FmtText [1] ()).ok = false ∧
      (write rejectingNative FmtText [1] ()).changed = none) ∧
    ((write storeNative FmtImage [1] Store.empty).ok = true ∧
      (write storeNative FmtImage [1] Store.empty).changed = some (Chan.make 1)) := by
  refine ⟨?_, ?_⟩
  · have h := (write_reports_native_status rejectingNative FmtText [1] ()).1 (by decide)
    exact ⟨h.1, h.2.1⟩
  · exact (write_reports_native_status storeNative FmtImage [1] Store.empty).2.1 (by decide)

/-! ## C10: a format that is neither text nor image -/

/-- C10: for a format that is neither FmtText nor FmtImage no native call is
made for the content: read returns nil and leaves the native state as it
was; write makes no native write call, returns true with a non-nil channel
for every payload, and leaves the native state as the change-count query
alone leaves it. -/
theorem other_format_no_native_call {σ : Type} (N : Native σ) (t : Format) (buf : List Byte)
    (s : σ) (h1 : t ≠ FmtText) (h2 : t ≠ FmtImage) :
    read N t s = (.ok none, s) ∧
    writeCall N t buf s = (0, s) ∧
    (write N t buf s).ok = true ∧
    (write N t buf s).changed = some (Chan.make 1) ∧
    (write N t buf s).world = (N.clipboard_change_count s).2 := by
  have hr := readCall_other N t s h1 h2
  have hw := writeCall_other N t buf s h1 h2
  have hz : (writeCall N t buf s).1 = 0 := by rw [hw]
  refine ⟨?_, hw, ?_, ?_, ?_⟩
  · have := read_no_buffer N t s (by rw [hr])
    rw [this, hr]
  · rw [write_of_status_zero N t buf s hz]
  · rw [write_of_status_zero N t buf s hz]
  · rw [write_of_status_zero N t buf s hz, hw]

/-- C10 at a concrete input: the format value 2 on a store that holds a text. -/
theorem other_format_no_native_call_witness :
    (2 : Format) ≠ FmtText ∧ (2 : Format) ≠ FmtImage ∧
    read storeNative 2 { text := some [7], image := some [8], changes := 3 }
      = (.ok none, { text := some [7], image := some [8], changes := 3 }) ∧
    (write storeNative 2 [5] { text := some [7], image := some [8], changes := 3 }).ok = true ∧
    (write storeNative 2 [5] { text := some [7], image := some [8], changes := 3 }).world
      = { text := some [7], image := some [8], changes := 3 } := by
  have h := other_format_no_native_call storeNative 2 [5]
    { text := some [7], image := some [8], changes := 3 } (by decide) (by decide)
  exact ⟨by decide, by decide, h.1, h.2.2.1, h.2.2.2.2⟩

/-! ## The store satisfies the round-trip law -/

theorem firstBytes_getD (b : List Byte) : firstBytes (fun i => b.getD i 0) b.length = b := by
  apply List.ext_getElem
  · simp [firstBytes]
  · intro i h1 h2
    simp [firstBytes, List.getD_eq_getElem?_getD, List.getElem?_eq_getElem h2]

theorem Store.payload_full (b : List Byte) (hb : b ≠ []) :
    Store.payload (some b) (b.length : Int) = some b := by
  have hpos : 0 < b.length := List.length_pos.mpr hb
  have : ¬ ((b.length : Int) ≤ 0) := by omega
  simp [Store.payload, this]

theorem Store.fetch_yields (b : List Byte) : Yields (Store.fetch (some b)) b :=
  ⟨fun i => b.getD i 0, rfl, rfl, firstBytes_getD b⟩

theorem storeNative_law : WriteReadLaw storeNative := by
  intro t b s ht hb _
  have hlen : b.length ≠ 0 := fun h0 => hb (List.length_eq_zero.mp h0)
  have hne : FmtImage ≠ FmtText := by decide
  rcases ht with ht | ht
  · subst ht
    simp only [writeCall, readCall, storeNative, hlen, if_true, if_false,
      Store.payload_full b hb]
    exact Store.fetch_yields b
  · subst ht
    simp only [writeCall, readCall, storeNative, hlen, if_true, if_false, hne,
      Store.payload_full b hb]
    exact Store.fetch_yields b

theorem rejectingNative_law : WriteReadLaw rejectingNative := by
  intro t b s ht hb h
  have hlen : b.length ≠ 0 := fun h0 => hb (List.length_eq_zero.mp h0)
  have hne : FmtImage ≠ FmtText := by decide
  rcases ht with ht | ht
  · subst ht
    simp [writeCall, rejectingNative, hlen] at h
  · subst ht
    simp [writeCall, rejectingNative, hlen, hne] at h

/-- On the store, a write of a payload of 2^31 bytes or more (and fewer than
2^32) succeeds and the read that follows panics. -/
theorem store_roundtrip_large (t : Format) (ht : t = FmtText ∨ t = FmtImage) (b : List Byte)
    (h1 : 2147483648 ≤ b.length) (h2 : b.length < 4294967296) (s : Store) :
    (write storeNative t b s).ok = true ∧
    (read storeNative t (write storeNative t b s).world).1 = .panic := by
  have hb : b ≠ [] := by
    intro h
    rw [h] at h1
    simp at h1
  have hz : (writeCall storeNative t b s).1 = 0 := by
    rcases ht with ht | ht <;> subst ht <;> simp [writeCall, storeNative, FmtImage, FmtText, hb]
  obtain ⟨mem, hd, hn, -⟩ := storeNative_law t b s ht hb hz
  rw [write_of_status_zero storeNative t b s hz]
  refine ⟨rfl, ?_⟩
  rw [read_buffer_large storeNative t _ mem hd (by rw [hn]; exact h1) (by rw [hn]; exact h2)]

/-! ## C1: write followed by read -/

/-- C1 (amended): over a native store in which a successful native write of b
under a format makes the native read of that format yield b, for the text and
the image format and every non-empty b of fewer than 2^31 bytes: when the
native write call returns status zero, write reports success and the read
performed immediately afterwards returns exactly b. -/
theorem write_then_read_roundtrip {σ : Type} (N : Native σ) (hlaw : WriteReadLaw N)
    (t : Format) (ht : t = FmtText ∨ t = FmtImage) (b : List Byte) (hb : b ≠ [])
    (hlen : b.length < 2147483648) (s : σ) (hok : (writeCall N t b s).1 = 0) :
    (write N t b s).ok = true ∧
    (read N t (write N t b s).world).1 = .ok (some b) := by
  obtain ⟨mem, hd, hn, hbytes⟩ := hlaw t b s ht hb hok
  have hpos : 0 < b.length := List.length_pos.mpr hb
  rw [write_of_status_zero N t b s hok]
  refine ⟨rfl, ?_⟩
  rw [read_buffer N t _ mem hd (by rw [hn]; exact hpos) (by rw [hn]; exact hlen)]
  simp only [hn, hbytes]

/-- C1 (amended) at a concrete input: three bytes written as text to the empty
store and read back. -/
theorem write_then_read_roundtrip_witness :
    (write storeNative FmtText [104, 105, 33] Store.empty).ok = true ∧
    (read storeNative FmtText (write storeNative FmtText [104, 105, 33] Store.empty).world).1
      = .ok (some [104, 105, 33]) :=
  write_then_read_roundtrip storeNative storeNative_law FmtText (Or.inl rfl) [104, 105, 33]
    (by decide) (by decide) Store.empty (by decide)

/-- C1 (counterexample): the claim as stated fails twice. A native that
rejects every write satisfies the law and write of a non-empty payload
reports failure. On the store, which satisfies the law and accepts every
write, a payload of 2^31 bytes is written with success and the read that
follows panics instead of returning the payload. -/
theorem write_then_read_roundtrip_fails :
    (WriteReadLaw rejectingNative ∧ (write rejectingNative FmtText [1] ()).ok = false) ∧
    (WriteReadLaw storeNative ∧
      (write storeNative FmtText (List.replicate 2147483648 0) Store.empty).ok = true ∧
      (read storeNative FmtText
        (write storeNative FmtText (List.replicate 2147483648 0) Store.empty).world).1
        = .panic) := by
  refine ⟨⟨rejectingNative_law, by decide⟩, storeNative_law, ?_⟩
  exact store_roundtrip_large FmtText (Or.inl rfl) (List.replicate 2147483648 0)
    (by rw [List.length_replicate]) (by rw [List.length_replicate]; decide) Store.empty

/-! ## C4: the empty payload -/

/-- C4: for the text and the image format, write of the empty payload makes
its native call with a nil pointer and the length 0, for every native service
(no element of the payload is addressed); it returns true when that call
reports status zero, and read returns nil when the native read hands back no
buffer or a zero length. On the native store modelled from the spec, where an
empty payload clears, write of the empty payload returns true and the read
that follows returns nil. -/
theorem write_empty_then_read_empty (t : Format) (ht : t = FmtText ∨ t = FmtImage) :
    (∀ (σ : Type) (N : Native σ) (s : σ),
      writeCall N t [] s =
        (if t = FmtText then N.clipboard_write_string none 0 s
         else N.clipboard_write_image none 0 s) ∧
      ((writeCall N t [] s).1 = 0 → (write N t [] s).ok = true) ∧
      (((readCall N t s).1.data = none ∨ cuint (readCall N t s).1.n = 0) →
        (read N t s).1 = .ok none)) ∧
    (∀ s : Store,
      (write storeNative t [] s).ok = true ∧
      (read storeNative t (write storeNative t [] s).world).1 = .ok none) := by
  have hne : FmtImage ≠ FmtText := by decide
  refine ⟨?_, ?_⟩
  · intro σ N s
    refine ⟨?_, ?_, ?_⟩
    · rcases ht with ht | ht <;> subst ht <;> simp [writeCall, hne]
    · intro h
      rw [write_of_status_zero N t [] s h]
    · intro h
      rcases h with h | h
      · rw [read_no_buffer N t s h]
      · rw [read_zero_length N t s h]
  · intro s
    have hz : (writeCall storeNative t [] s).1 = 0 := by
      rcases ht with ht | ht <;> subst ht <;> simp [writeCall, storeNative, hne]
    rw [write_of_status_zero storeNative t [] s hz]
    refine ⟨rfl, ?_⟩
    rw [read_no_buffer]
    rcases ht with ht | ht <;> subst ht <;>
      simp [readCall, writeCall, storeNative, hne, Store.payload, Store.fetch]

/-- C4 at a concrete input: the empty payload written as image to a store that
holds an image. -/
theorem write_empty_then_read_empty_witness :
    (FmtImage = FmtText ∨ FmtImage = FmtImage) ∧
    (write storeNative FmtImage [] { text := none, image := some [9, 9], changes := 4 }).ok
      = true ∧
    (read storeNative FmtImage
      (write storeNative FmtImage [] { text := none, image := some [9, 9], changes := 4 }).world).1
      = .ok none :=
  ⟨Or.inr rfl,
   (write_empty_then_read_empty FmtImage (Or.inr rfl)).2
     { text := none, image := some [9, 9], changes := 4 }⟩

/-! ## The change poller: the invariant holds along every run -/

theorem PollInv_start (cnt : Int) :
    PollInv cnt { cnt := cnt, changed := Chan.make 1, pc := .sleeping, seen := [] } := by
  refine ⟨rfl, rfl, Or.inl ⟨rfl, rfl, rfl, rfl, ?_⟩⟩
  intro c hc
  simp at hc

theorem PollInv_step {σ : Type} (N : Native σ) (cnt : Int) (p : Poller) (s : σ)
    (h : PollInv cnt p) : PollInv cnt (pollStep N p s).1 := by
  obtain ⟨hcnt, hcap, hcase⟩ := h
  rcases hcase with ⟨hpc, hhist, hbuf, hcl, hseen⟩ | ⟨hpc, hhist, hcl, hseen⟩
  · by_cases hd : p.cnt = (N.clipboard_change_count s).1
    · have hstep : (pollStep N p s).1 = { p with seen := p.seen ++ [(N.clipboard_change_count s).1] } := by
        simp [pollStep, hpc, hd]
      rw [hstep]
      refine ⟨hcnt, hcap, Or.inl ⟨hpc, hhist, hbuf, hcl, ?_⟩⟩
      intro c hc
      simp only [List.mem_append, List.mem_singleton] at hc
      rcases hc with hc | hc
      · exact hseen c hc
      · rw [hc, ← hd, hcnt]
    · have hstep : (pollStep N p s).1 =
          { p with seen := p.seen ++ [(N.clipboard_change_count s).1],
                   changed := { p.changed with buf := [()], hist := [()], closed := true },
                   pc := .returned } := by
        simp [pollStep, hpc, hd, Poller.signal, Chan.send, Chan.close, hcl, hbuf, hcap, hhist]
      rw [hstep]
      refine ⟨hcnt, hcap, Or.inr ⟨rfl, rfl, rfl, p.seen, (N.clipboard_change_count s).1, rfl,
        hseen, ?_⟩⟩
      intro he
      exact hd (by rw [he, hcnt])
  · have hstep : (pollStep N p s).1 = p := by
      simp [pollStep, hpc]
    rw [hstep]
    exact ⟨hcnt, hcap, Or.inr ⟨hpc, hhist, hcl, hseen⟩⟩

theorem PollInv_event {σ : Type} (N : Native σ) (cnt : Int) (ps : Poller × σ)
    (e : PollEvent σ) (h : PollInv cnt ps.1) : PollInv cnt (pollEvent N ps e).1 := by
  cases e with
  | wake => exact PollInv_step N cnt ps.1 ps.2 h
  | consume =>
    obtain ⟨hcnt, hcap, hcase⟩ := h
    refine ⟨hcnt, hcap, ?_⟩
    rcases hcase with ⟨hpc, hhist, hbuf, hcl, hseen⟩ | ⟨hpc, hhist, hcl, hseen⟩
    · refine Or.inl ⟨hpc, hhist, ?_, hcl, hseen⟩
      simp [pollEvent, Chan.recv, hbuf]
    · exact Or.inr ⟨hpc, hhist, hcl, hseen⟩
  | env f => exact h

theorem PollInv_run {σ : Type} (N : Native σ) (cnt : Int) (evs : List (PollEvent σ))
    (p : Poller) (s : σ) (h : PollInv cnt p) : PollInv cnt (pollRun N p s evs).1 := by
  induction evs generalizing p s with
  | nil => exact h
  | cons e rest ih =>
    have h1 := PollInv_event N cnt (p, s) e h
    have := ih (pollEvent N (p, s) e).1 (pollEvent N (p, s) e).2 h1
    simpa [pollRun] using this

theorem write_task_inv {σ : Type} (N : Native σ) (t : Format) (buf : List Byte) (s : σ)
    (p : Poller) (hw : (write N t buf s).task = some p) :
    p.cnt = (N.clipboard_change_count (writeCall N t buf s).2).1 ∧ PollInv p.cnt p := by
  by_cases hz : (writeCall N t buf s).1 = 0
  · rw [write_of_status_zero N t buf s hz] at hw
    simp only [Option.some.injEq] at hw
    subst hw
    exact ⟨rfl, PollInv_start _⟩
  · rw [write_of_status_nonzero N t buf s hz] at hw
    simp at hw

/-! ## C5: the change notification -/

/-- C5 (amended): for every successful write and every run of its polling
task, the captured value is the change count read at write time; the
notification is signalled at most once; it has been signalled exactly once if
and only if some observed counter value differed from the captured one, and
then at the poll that observed the first such value, which is the last poll
made; along observations that all equal the captured value no notification is
signalled and the task has not terminated. -/
theorem poller_signals_at_most_once {σ : Type} (N : Native σ) (t : Format) (buf : List Byte)
    (s : σ) (p : Poller) (hw : (write N t buf s).task = some p) (s1 : σ)
    (evs : List (PollEvent σ)) :
    p.cnt = (N.clipboard_change_count (writeCall N t buf s).2).1 ∧
    (pollRun N p s1 evs).1.changed.hist.length ≤ 1 ∧
    ((pollRun N p s1 evs).1.changed.hist = [()] ↔
      ∃ c ∈ (pollRun N p s1 evs).1.seen, c ≠ p.cnt) ∧
    ((pollRun N p s1 evs).1.changed.hist = [()] →
      ∃ pre c, (pollRun N p s1 evs).1.seen = pre ++ [c] ∧ (∀ x ∈ pre, x = p.cnt) ∧ c ≠ p.cnt) ∧
    ((∀ c ∈ (pollRun N p s1 evs).1.seen, c = p.cnt) →
      (pollRun N p s1 evs).1.changed.hist = [] ∧ (pollRun N p s1 evs).1.pc = .sleeping) := by
  obtain ⟨hcnt, hinv⟩ := write_task_inv N t buf s p hw
  obtain ⟨-, -, hcase⟩ := PollInv_run N p.cnt evs p s1 hinv
  refine ⟨hcnt, ?_⟩
  rcases hcase with ⟨hpc, hhist, -, -, hseen⟩ | ⟨hpc, hhist, -, pre, c, hs, hpre, hc⟩
  · refine ⟨by rw [hhist]; simp, ⟨?_, ?_⟩, ?_, ?_⟩
    · intro h
      rw [hhist] at h
      simp at h
    · rintro ⟨c, hc, hne⟩
      exact absurd (hseen c hc) hne
    · intro h
      rw [hhist] at h
      simp at h
    · intro _
      exact ⟨hhist, hpc⟩
  · refine ⟨by rw [hhist]; simp, ⟨?_, ?_⟩, ?_, ?_⟩
    · intro _
      exact ⟨c, by rw [hs]; simp, hc⟩
    · intro _
      exact hhist
    · intro _
      exact ⟨pre, c, hs, hpre, hc⟩
    · intro h
      exact absurd (h c (by rw [hs]; simp)) hc

/-- C5 (amended) at a concrete input: a text is written to the empty store, the
poller observes the unchanged counter, another write changes the counter, and
the poller observes it. -/
theorem poller_signals_at_most_once_witness :
    (write storeNative FmtText [1] Store.empty).task
      = some { cnt := 1, changed := Chan.make 1, pc := .sleeping, seen := [] } ∧
    (pollRun storeNative { cnt := 1, changed := Chan.make 1, pc := .sleeping, seen := [] }
      { text := some [1], image := none, changes := 1 }
      [.wake, .env (fun s => (storeNative.clipboard_write_string (some [2]) 1 s).2), .wake,
       .wake, .consume]).1.changed.hist.length ≤ 1 :=
  ⟨by decide,
   (poller_signals_at_most_once storeNative FmtText [1] Store.empty
     { cnt := 1, changed := Chan.make 1, pc := .sleeping, seen := [] } (by decide)
     { text := some [1], image := none, changes := 1 }
     [.wake, .env (fun s => (storeNative.clipboard_write_string (some [2]) 1 s).2), .wake,
      .wake, .consume]).2.1⟩

/-- C5 (counterexample): a text is written to the empty store and the poller
polls three times while nothing changes the clipboard: the three observed
values equal the captured one, no notification has been signalled (not
exactly one) and the task is still polling. -/
theorem poller_constant_counter_no_signal :
    (write storeNative FmtText [1] Store.empty).task
      = some { cnt := 1, changed := Chan.make 1, pc := .sleeping, seen := [] } ∧
    (pollRun storeNative { cnt := 1, changed := Chan.make 1, pc := .sleeping, seen := [] }
      (write storeNative FmtText [1] Store.empty).world [.wake, .wake, .wake]).1
      = { cnt := 1, changed := { cap := 1, buf := [], closed := false, hist := [] },
          pc := .sleeping, seen := [1, 1, 1] } := by
  refine ⟨by decide, by decide⟩

/-! ## C9: the send of the notification never blocks -/

/-- C9: along every run of the polling task started by a successful write,
whether or not anyone receives from the channel, the task is never blocked in
its send and never panics, at most one value is ever sent, the task has
returned exactly when some observed counter value differed from the captured
one, the channel is then closed with its one value sent, and from a polling
state the poll that observes a differing value completes the send, closes the
channel and returns. -/
theorem poller_send_completes {σ : Type} (N : Native σ) (t : Format) (buf : List Byte)
    (s : σ) (p : Poller) (hw : (write N t buf s).task = some p) (s1 : σ)
    (evs : List (PollEvent σ)) :
    (pollRun N p s1 evs).1.pc ≠ .sending ∧
    (pollRun N p s1 evs).1.pc ≠ .panicked ∧
    (pollRun N p s1 evs).1.changed.hist.length ≤ 1 ∧
    ((pollRun N p s1 evs).1.pc = .returned ↔
      ∃ c ∈ (pollRun N p s1 evs).1.seen, c ≠ p.cnt) ∧
    ((pollRun N p s1 evs).1.pc = .returned →
      (pollRun N p s1 evs).1.changed.closed = true ∧
      (pollRun N p s1 evs).1.changed.hist = [()]) ∧
    ((pollRun N p s1 evs).1.pc = .sleeping →
      (N.clipboard_change_count (pollRun N p s1 evs).2).1 ≠ p.cnt →
      (pollStep N (pollRun N p s1 evs).1 (pollRun N p s1 evs).2).1.pc = .returned ∧
      (pollStep N (pollRun N p s1 evs).1 (pollRun N p s1 evs).2).1.changed.closed = true ∧
      (pollStep N (pollRun N p s1 evs).1 (pollRun N p s1 evs).2).1.changed.hist = [()]) := by
  obtain ⟨-, hinv⟩ := write_task_inv N t buf s p hw
  have hrun := PollInv_run N p.cnt evs p s1 hinv
  have hnext := PollInv_step N p.cnt (pollRun N p s1 evs).1 (pollRun N p s1 evs).2 hrun
  obtain ⟨hcnt, -, hcase⟩ := hrun
  have hlast : (pollRun N p s1 evs).1.pc = .sleeping →
      (N.clipboard_change_count (pollRun N p s1 evs).2).1 ≠ p.cnt →
      (pollStep N (pollRun N p s1 evs).1 (pollRun N p s1 evs).2).1.pc = .returned ∧
      (pollStep N (pollRun N p s1 evs).1 (pollRun N p s1 evs).2).1.changed.closed = true ∧
      (pollStep N (pollRun N p s1 evs).1 (pollRun N p s1 evs).2).1.changed.hist = [()] := by
    intro hpc hne
    obtain ⟨-, -, hcase2⟩ := hnext
    rcases hcase2 with ⟨-, -, -, -, hseen2⟩ | ⟨hpc2, hhist2, hcl2, -⟩
    · exfalso
      apply hne
      apply hseen2
      simp [pollStep, hpc, hcnt, hne.symm, Poller.signal]
      cases (pollRun N p s1 evs).1.changed.send () <;> simp
    · exact ⟨hpc2, hcl2, hhist2⟩
  rcases hcase with ⟨hpc, hhist, -, -, hseen⟩ | ⟨hpc, hhist, hcl, pre, c, hs, -, hc⟩
  · refine ⟨by rw [hpc]; simp, by rw [hpc]; simp, by rw [hhist]; simp, ⟨?_, ?_⟩, ?_, hlast⟩
    · intro h
      rw [hpc] at h
      simp at h
    · rintro ⟨c, hc, hne⟩
      exact absurd (hseen c hc) hne
    · intro h
      rw [hpc] at h
      simp at h
  · refine ⟨by rw [hpc]; simp, by rw [hpc]; simp, by rw [hhist]; simp, ⟨?_, ?_⟩, ?_, hlast⟩
    · intro _
      exact ⟨c, by rw [hs]; simp, hc⟩
    · intro _
      exact hpc
    · intro _
      exact ⟨hcl, hhist⟩

/-- C9 at a concrete input: nobody ever receives; the counter changes after the
first poll and the second poll sends, closes and returns. -/
theorem poller_send_completes_witness :
    (write storeNative FmtImage [3] Store.empty).task
      = some { cnt := 1, changed := Chan.make 1, pc := .sleeping, seen := [] } ∧
    (pollRun storeNative { cnt := 1, changed := Chan.make 1, pc := .sleeping, seen := [] }
      { text := none, image := some [3], changes := 1 }
      [.wake, .env (fun s => (storeNative.clipboard_write_image (some [4]) 1 s).2), .wake]).1.pc
      = .returned :=
  ⟨by decide,
   ((poller_send_completes storeNative FmtImage [3] Store.empty
     { cnt := 1, changed := Chan.make 1, pc := .sleeping, seen := [] } (by decide)
     { text := none, image := some [3], changes := 1 }
     [.wake, .env (fun s => (storeNative.clipboard_write_image (some [4]) 1 s).2),
      .wake]).2.2.2.1).mpr ⟨2, by decide, by decide⟩⟩

/-! ## The watch goroutine: facts about one scheduling -/

theorem deliver_room (w : Watcher) (b : List Byte) (c : Int) (hcl : w.recv.closed = false)
    (hroom : w.recv.buf.length < w.recv.cap) :
    w.deliver b c =
      { w with recv := { w.recv with buf := w.recv.buf ++ [b], hist := w.recv.hist ++ [b] },
               lastCount := c, pc := .selecting } := by
  simp [Watcher.deliver, Chan.send, hcl, hroom]

theorem deliver_full (w : Watcher) (b : List Byte) (c : Int) (hcl : w.recv.closed = false)
    (hfull : w.recv.cap ≤ w.recv.buf.length) :
    w.deliver b c = { w with pc := .sending b c } := by
  have : ¬ w.recv.buf.length < w.recv.cap := by omega
  simp [Watcher.deliver, Chan.send, hcl, this]

theorem deliver_closed (w : Watcher) (b : List Byte) (c : Int) (hcl : w.recv.closed = true) :
    w.deliver b c = { w with pc := .panicked } := by
  simp [Watcher.deliver, Chan.send, hcl]

/-- The three outcomes of the send of a snapshot. -/
theorem deliver_cases (w : Watcher) (b : List Byte) (c : Int) :
    w.deliver b c =
      { w with recv := { w.recv with buf := w.recv.buf ++ [b], hist := w.recv.hist ++ [b] },
               lastCount := c, pc := .selecting } ∨
    w.deliver b c = { w with pc := .sending b c } ∨
    w.deliver b c = { w with pc := .panicked } := by
  cases hcl : w.recv.closed with
  | true => exact Or.inr (Or.inr (deliver_closed w b c hcl))
  | false =>
    by_cases hroom : w.recv.buf.length < w.recv.cap
    · exact Or.inl (deliver_room w b c hcl hroom)
    · exact Or.inr (Or.inl (deliver_full w b c hcl (by omega)))

theorem watchStep_init {σ : Type} (N : Native σ) (t : Format) (cn : Bool) (sel : SelectCase)
    (w : Watcher) (s : σ) (hpc : w.pc = .init) :
    watchStep N t cn sel w s =
      ({ w with lastCount := (N.clipboard_change_count s).1, pc := .selecting },
       (N.clipboard_change_count s).2) := by
  simp [watchStep, hpc]

theorem watchStep_done {σ : Type} (N : Native σ) (t : Format) (cn : Bool)
    (w : Watcher) (s : σ) (hpc : w.pc = .selecting) :
    watchStep N t cn .done w s =
      if cn then ({ w with recv := w.recv.close, pc := .returned }, s) else (w, s) := by
  simp [watchStep, hpc]

theorem watchStep_tick_same {σ : Type} (N : Native σ) (t : Format) (cn : Bool)
    (w : Watcher) (s : σ) (hpc : w.pc = .selecting)
    (h : (N.clipboard_change_count s).1 = w.lastCount) :
    watchStep N t cn .tick w s =
      ({ w with seen := w.seen ++ [(N.clipboard_change_count s).1] },
       (N.clipboard_change_count s).2) := by
  simp [watchStep, hpc, h]

theorem watchStep_tick_nil {σ : Type} (N : Native σ) (t : Format) (cn : Bool)
    (w : Watcher) (s s2 : σ) (hpc : w.pc = .selecting)
    (h : (N.clipboard_change_count s).1 ≠ w.lastCount)
    (hr : Read N t (N.clipboard_change_count s).2 = (.ok none, s2)) :
    watchStep N t cn .tick w s =
      ({ w with seen := w.seen ++ [(N.clipboard_change_count s).1] }, s2) := by
  simp [watchStep, hpc, Ne.symm h, hr]

theorem watchStep_tick_panic {σ : Type} (N : Native σ) (t : Format) (cn : Bool)
    (w : Watcher) (s s2 : σ) (hpc : w.pc = .selecting)
    (h : (N.clipboard_change_count s).1 ≠ w.lastCount)
    (hr : Read N t (N.clipboard_change_count s).2 = (.panic, s2)) :
    watchStep N t cn .tick w s =
      ({ w with seen := w.seen ++ [(N.clipboard_change_count s).1], pc := .panicked }, s2) := by
  simp [watchStep, hpc, Ne.symm h, hr]

theorem watchStep_tick_some {σ : Type} (N : Native σ) (t : Format) (cn : Bool)
    (w : Watcher) (s s2 : σ) (b : List Byte) (hpc : w.pc = .selecting)
    (h : (N.clipboard_change_count s).1 ≠ w.lastCount)
    (hr : Read N t (N.clipboard_change_count s).2 = (.ok (some b), s2)) :
    watchStep N t cn .tick w s =
      (Watcher.deliver { w with seen := w.seen ++ [(N.clipboard_change_count s).1] } b
        (N.clipboard_change_count s).1, s2) := by
  simp [watchStep, hpc, Ne.symm h, hr]

theorem watchStep_sending {σ : Type} (N : Native σ) (t : Format) (cn : Bool)
    (sel : SelectCase) (w : Watcher) (s : σ) (b : List Byte) (c : Int)
    (hpc : w.pc = .sending b c) :
    watchStep N t cn sel w s = (w.deliver b c, s) := by
  simp [watchStep, hpc]

theorem watchStep_stopped {σ : Type} (N : Native σ) (t : Format) (cn : Bool)
    (sel : SelectCase) (w : Watcher) (s : σ) (hpc : w.pc = .returned ∨ w.pc = .panicked) :
    watchStep N t cn sel w s = (w, s) := by
  rcases hpc with hpc | hpc <;> simp [watchStep, hpc]

/-- The result of Read, by cases. -/
theorem Read_cases {σ : Type} (N : Native σ) (t : Format) (s : σ) :
    (∃ s2, Read N t s = (.panic, s2)) ∨ (∃ s2, Read N t s = (.ok none, s2)) ∨
    (∃ b s2, Read N t s = (.ok (some b), s2) ∧ b ≠ []) := by
  rcases hr : Read N t s with ⟨r, s2⟩
  cases r with
  | panic => exact Or.inl ⟨s2, rfl⟩
  | ok v =>
    cases v with
    | none => exact Or.inr (Or.inl ⟨s2, rfl⟩)
    | some b => exact Or.inr (Or.inr ⟨b, s2, rfl, read_some_nonempty N t s s2 b hr⟩)

/-- Every scheduling of the watch goroutine has one of seven shapes. -/
theorem watchStep_shape {σ : Type} (N : Native σ) (t : Format) (cn : Bool) (sel : SelectCase)
    (w : Watcher) (s : σ) :
    (w.pc = .init ∧ (watchStep N t cn sel w s).1 =
      { w with lastCount := (N.clipboard_change_count s).1, pc := .selecting }) ∨
    ((watchStep N t cn sel w s).1 = w) ∨
    (w.pc = .selecting ∧ cn = true ∧
      (watchStep N t cn sel w s).1 = { w with recv := w.recv.close, pc := .returned }) ∨
    (w.pc = .selecting ∧ (watchStep N t cn sel w s).1 =
      { w with seen := w.seen ++ [(N.clipboard_change_count s).1] }) ∨
    (w.pc = .selecting ∧ (N.clipboard_change_count s).1 ≠ w.lastCount ∧
      (watchStep N t cn sel w s).1 =
        { w with seen := w.seen ++ [(N.clipboard_change_count s).1], pc := .panicked }) ∨
    (w.pc = .selecting ∧ (N.clipboard_change_count s).1 ≠ w.lastCount ∧
      ∃ b, b ≠ [] ∧ (watchStep N t cn sel w s).1 =
        Watcher.deliver { w with seen := w.seen ++ [(N.clipboard_change_count s).1] } b
          (N.clipboard_change_count s).1) ∨
    (∃ b c, w.pc = .sending b c ∧ (watchStep N t cn sel w s).1 = w.deliver b c) := by
  have hcases : w.pc = .init ∨ w.pc = .selecting ∨ (∃ b c, w.pc = .sending b c) ∨
      w.pc = .returned ∨ w.pc = .panicked := by
    cases w.pc <;> simp
  rcases hcases with hpc | hpc | ⟨b, c, hpc⟩ | hpc | hpc
  · left
    exact ⟨hpc, by rw [watchStep_init N t cn sel w s hpc]⟩
  · cases sel with
    | done =>
      rw [watchStep_done N t cn w s hpc]
      cases cn with
      | true =>
        right; right; left
        exact ⟨hpc, rfl, rfl⟩
      | false =>
        right; left
        rfl
    | tick =>
      by_cases h : (N.clipboard_change_count s).1 = w.lastCount
      · right; right; right; left
        exact ⟨hpc, by rw [watchStep_tick_same N t cn w s hpc h]⟩
      · rcases Read_cases N t (N.clipboard_change_count s).2 with
          ⟨s2, hr⟩ | ⟨s2, hr⟩ | ⟨b, s2, hr, hb⟩
        · right; right; right; right; left
          exact ⟨hpc, h, by rw [watchStep_tick_panic N t cn w s s2 hpc h hr]⟩
        · right; right; right; left
          exact ⟨hpc, by rw [watchStep_tick_nil N t cn w s s2 hpc h hr]⟩
        · right; right; right; right; right; left
          exact ⟨hpc, h, b, hb, by rw [watchStep_tick_some N t cn w s s2 b hpc h hr]⟩
  · right; right; right; right; right; right
    exact ⟨b, c, hpc, by rw [watchStep_sending N t cn sel w s b c hpc]⟩
  · right; left
    rw [watchStep_stopped N t cn sel w s (Or.inl hpc)]
  · right; left
    rw [watchStep_stopped N t cn sel w s (Or.inr hpc)]

/-! ## The watch goroutine: invariants of its runs -/

theorem EmitsNonEmpty_deliver (w : Watcher) (b : List Byte) (c : Int) (hb : b ≠ [])
    (h : ∀ x ∈ w.recv.hist, x ≠ []) : EmitsNonEmpty (w.deliver b c) := by
  rcases deliver_cases w b c with hd | hd | hd <;> rw [hd]
  · refine ⟨?_, ?_⟩
    · intro x hx
      simp only [List.mem_append, List.mem_singleton] at hx
      rcases hx with hx | hx
      · exact h x hx
      · rw [hx]; exact hb
    · intro b2 c2 hpc
      simp at hpc
  · refine ⟨h, ?_⟩
    intro b2 c2 hpc
    simp only [WatchPc.sending.injEq] at hpc
    rw [← hpc.1]; exact hb
  · refine ⟨h, ?_⟩
    intro b2 c2 hpc
    simp at hpc

theorem EmitsNonEmpty_step {σ : Type} (N : Native σ) (t : Format) (cn : Bool)
    (sel : SelectCase) (w : Watcher) (s : σ) (h : EmitsNonEmpty w) :
    EmitsNonEmpty (watchStep N t cn sel w s).1 := by
  rcases watchStep_shape N t cn sel w s with
    ⟨-, hs⟩ | hs | ⟨-, -, hs⟩ | ⟨hpc, hs⟩ | ⟨-, -, hs⟩ | ⟨-, -, b, hb, hs⟩ | ⟨b, c, hpc, hs⟩
  · rw [hs]
    exact ⟨h.1, by intro b c hpc; simp at hpc⟩
  · rw [hs]; exact h
  · rw [hs]
    exact ⟨h.1, by intro b c hpc; simp at hpc⟩
  · rw [hs]
    exact ⟨h.1, by intro b c hpc2; simp [hpc] at hpc2⟩
  · rw [hs]
    exact ⟨h.1, by intro b c hpc; simp at hpc⟩
  · rw [hs]
    exact EmitsNonEmpty_deliver _ b _ hb h.1
  · rw [hs]
    exact EmitsNonEmpty_deliver w b c (h.2 b c hpc) h.1

theorem EmitsNonEmpty_event {σ : Type} (N : Native σ) (t : Format) (x : WatchSys σ)
    (e : WatchEvent σ) (h : EmitsNonEmpty x.task) : EmitsNonEmpty (watchEvent N t x e).task := by
  cases e with
  | run sel => exact EmitsNonEmpty_step N t x.cancelled sel x.task x.world h
  | cancel => exact h
  | consume => exact h
  | env f => exact h

theorem EmitsNonEmpty_run {σ : Type} (N : Native σ) (t : Format) (evs : List (WatchEvent σ))
    (x : WatchSys σ) (h : EmitsNonEmpty x.task) : EmitsNonEmpty (watchRun N t x evs).task := by
  induction evs generalizing x with
  | nil => exact h
  | cons e rest ih =>
    have := ih (watchEvent N t x e) (EmitsNonEmpty_event N t x e h)
    simpa [watchRun] using this

/-- At most one element is sent in one scheduling. -/
theorem watchStep_hist {σ : Type} (N : Native σ) (t : Format) (cn : Bool)
    (sel : SelectCase) (w : Watcher) (s : σ) :
    (watchStep N t cn sel w s).1.recv.hist = w.recv.hist ∨
    ∃ b, (watchStep N t cn sel w s).1.recv.hist = w.recv.hist ++ [b] := by
  rcases watchStep_shape N t cn sel w s with
    ⟨-, hs⟩ | hs | ⟨-, -, hs⟩ | ⟨-, hs⟩ | ⟨-, -, hs⟩ | ⟨-, -, b, -, hs⟩ | ⟨b, c, -, hs⟩
  · left; rw [hs]
  · left; rw [hs]
  · left; rw [hs]; rfl
  · left; rw [hs]
  · left; rw [hs]
  · rw [hs]
    rcases deliver_cases { w with seen := w.seen ++ [(N.clipboard_change_count s).1] } b
      (N.clipboard_change_count s).1 with hd | hd | hd <;> rw [hd]
    · right; exact ⟨b, rfl⟩
    · left; rfl
    · left; rfl
  · rw [hs]
    rcases deliver_cases w b c with hd | hd | hd <;> rw [hd]
    · right; exact ⟨b, rfl⟩
    · left; rfl
    · left; rfl

theorem QuietInv_deliver (c0 : Int) (w : Watcher) (b : List Byte) (c : Int)
    (h : ∃ x ∈ w.seen, x ≠ c0) : QuietInv c0 (w.deliver b c) := by
  rcases deliver_cases w b c with hd | hd | hd <;> rw [hd] <;>
    exact ⟨by simp, Or.inl h⟩

theorem QuietInv_step {σ : Type} (N : Native σ) (t : Format) (cn : Bool)
    (sel : SelectCase) (c0 : Int) (w : Watcher) (s : σ) (h : QuietInv c0 w) :
    QuietInv c0 (watchStep N t cn sel w s).1 := by
  obtain ⟨hinit, hq⟩ := h
  rcases watchStep_shape N t cn sel w s with
    ⟨hpc, -⟩ | hs | ⟨hpc, -, hs⟩ | ⟨hpc, hs⟩ | ⟨-, hne, hs⟩ | ⟨-, hne, b, -, hs⟩ | ⟨b, c, hpc, hs⟩
  · exact absurd hpc hinit
  · rw [hs]; exact ⟨hinit, hq⟩
  · rw [hs]
    refine ⟨by simp, ?_⟩
    rcases hq with hq | ⟨h1, h2, -⟩
    · exact Or.inl hq
    · exact Or.inr ⟨h1, h2, by intro b c; simp⟩
  · rw [hs]
    refine ⟨by simp [hpc], ?_⟩
    rcases hq with ⟨c, hc, hcne⟩ | ⟨h1, h2, h3⟩
    · exact Or.inl ⟨c, by simp [hc], hcne⟩
    · by_cases hsame : (N.clipboard_change_count s).1 = c0
      · exact Or.inr ⟨h1, h2, by intro b c; simp [hpc]⟩
      · exact Or.inl ⟨(N.clipboard_change_count s).1, by simp, hsame⟩
  · rw [hs]
    refine ⟨by simp, ?_⟩
    rcases hq with ⟨c, hc, hcne⟩ | ⟨h1, -, -⟩
    · exact Or.inl ⟨c, by simp [hc], hcne⟩
    · exact Or.inl ⟨(N.clipboard_change_count s).1, by simp, by rw [← h1]; exact hne⟩
  · rw [hs]
    apply QuietInv_deliver
    rcases hq with ⟨c, hc, hcne⟩ | ⟨h1, -, -⟩
    · exact ⟨c, by simp [hc], hcne⟩
    · exact ⟨(N.clipboard_change_count s).1, by simp, by rw [← h1]; exact hne⟩
  · rw [hs]
    apply QuietInv_deliver
    rcases hq with hq | ⟨-, -, h3⟩
    · exact hq
    · exact absurd hpc (h3 b c)

theorem QuietInv_event {σ : Type} (N : Native σ) (t : Format) (c0 : Int) (x : WatchSys σ)
    (e : WatchEvent σ) (h : QuietInv c0 x.task) : QuietInv c0 (watchEvent N t x e).task := by
  cases e with
  | run sel => exact QuietInv_step N t x.cancelled sel c0 x.task x.world h
  | cancel => exact h
  | consume => exact h
  | env f => exact h

theorem QuietInv_run {σ : Type} (N : Native σ) (t : Format) (c0 : Int)
    (evs : List (WatchEvent σ)) (x : WatchSys σ) (h : QuietInv c0 x.task) :
    QuietInv c0 (watchRun N t x evs).task := by
  induction evs generalizing x with
  | nil => exact h
  | cons e rest ih =>
    have := ih (watchEvent N t x e) (QuietInv_event N t c0 x e h)
    simpa [watchRun] using this

/-! ## C6: no element before a change -/

/-- C6: the first scheduling of the watch goroutine records the change count;
along every schedule that follows, if every counter value observed at a tick
equals the recorded one, nothing has been sent on the output channel. The
schedule is arbitrary, so this holds after every tick of an initial stretch of
ticks that all observe the recorded value. -/
theorem watch_silent_until_change {σ : Type} (N : Native σ) (t : Format) (cn : Bool)
    (sel : SelectCase) (s : σ) (evs : List (WatchEvent σ))
    (h : ∀ c ∈ (watchRun N t { task := watch t, cancelled := cn, world := s }
        (.run sel :: evs)).task.seen, c = (N.clipboard_change_count s).1) :
    (watchRun N t { task := watch t, cancelled := cn, world := s } [.run sel]).task.lastCount
      = (N.clipboard_change_count s).1 ∧
    (watchRun N t { task := watch t, cancelled := cn, world := s }
      (.run sel :: evs)).task.recv.hist = [] := by
  have hfirst : watchEvent N t { task := watch t, cancelled := cn, world := s } (.run sel) =
      { task := { watch t with lastCount := (N.clipboard_change_count s).1, pc := .selecting },
        cancelled := cn, world := (N.clipboard_change_count s).2 } := by
    simp [watchEvent, watchStep_init N t cn sel (watch t) s rfl]
  have hrun : watchRun N t { task := watch t, cancelled := cn, world := s } (.run sel :: evs) =
      watchRun N t (watchEvent N t { task := watch t, cancelled := cn, world := s } (.run sel))
        evs := by
    simp [watchRun]
  refine ⟨?_, ?_⟩
  · simp [watchRun, hfirst]
  · rw [hrun] at h ⊢
    rw [hfirst] at h ⊢
    have hinv := QuietInv_run N t (N.clipboard_change_count s).1 evs
      { task := { watch t with lastCount := (N.clipboard_change_count s).1, pc := .selecting },
        cancelled := cn, world := (N.clipboard_change_count s).2 }
      ⟨by simp, Or.inr ⟨rfl, rfl, by intro b c; simp⟩⟩
    rcases hinv.2 with ⟨c, hc, hne⟩ | ⟨-, hhist, -⟩
    · exact absurd (h c hc) hne
    · exact hhist

/-- C6 at a concrete input: a watch on a store that holds a text and is not
changed: three ticks observe the recorded count and nothing is sent. -/
theorem watch_silent_until_change_witness :
    (∀ c ∈ (watchRun storeNative FmtText
        { task := watch FmtText, cancelled := false,
          world := { text := some [7], image := none, changes := 5 } }
        [.run .tick, .run .tick, .run .tick, .run .tick]).task.seen,
      c = (storeNative.clipboard_change_count
        { text := some [7], image := none, changes := 5 }).1) ∧
    (watchRun storeNative FmtText
        { task := watch FmtText, cancelled := false,
          world := { text := some [7], image := none, changes := 5 } }
        [.run .tick, .run .tick, .run .tick, .run .tick]).task.recv.hist = [] :=
  ⟨by decide,
   (watch_silent_until_change storeNative FmtText false .tick
     { text := some [7], image := none, changes := 5 } [.run .tick, .run .tick, .run .tick]
     (by decide)).2⟩

/-! ## C8: one polling tick of watch -/

/-- C8: one tick of watch taken at the select, with last observed counter
w.lastCount and observed counter c. If c equals the last observed counter the
native state is the one the change-count query leaves (nothing is read),
nothing is sent and the last observed counter is unchanged. If c differs and
Read returns a slice b, then b is non-empty and: with a free slot in the
output channel b is sent as the next element and the last observed counter
becomes c; with the channel full the goroutine waits in the send and, once a
slot is free, sends b as the next element and sets the last observed counter
to c. If c differs and Read returns nil, nothing is sent and the last observed
counter stays, so the next tick with the same c reads again. Every scheduling
sends at most one element, and every element a watch ever sends is
non-empty. -/
theorem watch_tick_behaviour {σ : Type} (N : Native σ) (t : Format) (cn : Bool)
    (w : Watcher) (s : σ) (hpc : w.pc = .selecting) :
    ((N.clipboard_change_count s).1 = w.lastCount →
      watchStep N t cn .tick w s =
        ({ w with seen := w.seen ++ [(N.clipboard_change_count s).1] },
         (N.clipboard_change_count s).2)) ∧
    ((N.clipboard_change_count s).1 ≠ w.lastCount →
      ∀ (b : List Byte) (s2 : σ),
        Read N t (N.clipboard_change_count s).2 = (.ok (some b), s2) →
        b ≠ [] ∧
        (w.recv.closed = false → w.recv.buf.length < w.recv.cap →
          watchStep N t cn .tick w s =
            ({ w with seen := w.seen ++ [(N.clipboard_change_count s).1],
                      recv := { w.recv with buf := w.recv.buf ++ [b],
                                            hist := w.recv.hist ++ [b] },
                      lastCount := (N.clipboard_change_count s).1, pc := .selecting }, s2)) ∧
        (w.recv.closed = false → w.recv.cap ≤ w.recv.buf.length →
          watchStep N t cn .tick w s =
            ({ w with seen := w.seen ++ [(N.clipboard_change_count s).1],
                      pc := .sending b (N.clipboard_change_count s).1 }, s2) ∧
          ∀ (sel : SelectCase) (s3 : σ) (r : Chan (List Byte)),
            r.closed = false → r.buf.length < r.cap →
            watchStep N t cn sel
              { w with seen := w.seen ++ [(N.clipboard_change_count s).1],
                       pc := .sending b (N.clipboard_change_count s).1, recv := r } s3 =
              ({ w with seen := w.seen ++ [(N.clipboard_change_count s).1],
                        recv := { r with buf := r.buf ++ [b], hist := r.hist ++ [b] },
                        lastCount := (N.clipboard_change_count s).1, pc := .selecting }, s3))) ∧
    ((N.clipboard_change_count s).1 ≠ w.lastCount →
      ∀ (s2 : σ), Read N t (N.clipboard_change_count s).2 = (.ok none, s2) →
        watchStep N t cn .tick w s =
          ({ w with seen := w.seen ++ [(N.clipboard_change_count s).1] }, s2)) ∧
    (∀ (sel : SelectCase) (w2 : Watcher) (s2 : σ),
      (watchStep N t cn sel w2 s2).1.recv.hist = w2.recv.hist ∨
      ∃ b, (watchStep N t cn sel w2 s2).1.recv.hist = w2.recv.hist ++ [b]) ∧
    (∀ (s0 : σ) (cn0 : Bool) (evs : List (WatchEvent σ)),
      ∀ b ∈ (watchRun N t { task := watch t, cancelled := cn0, world := s0 } evs).task.recv.hist,
        b ≠ []) := by
  refine ⟨?_, ?_, ?_, ?_, ?_⟩
  · intro h
    exact watchStep_tick_same N t cn w s hpc h
  · intro h b s2 hr
    refine ⟨read_some_nonempty N t _ s2 b hr, ?_, ?_⟩
    · intro hcl hroom
      have hd := deliver_room { w with seen := w.seen ++ [(N.clipboard_change_count s).1] } b
        (N.clipboard_change_count s).1 hcl hroom
      rw [watchStep_tick_some N t cn w s s2 b hpc h hr, hd]
    · intro hcl hfull
      refine ⟨?_, ?_⟩
      · have hd := deliver_full { w with seen := w.seen ++ [(N.clipboard_change_count s).1] } b
          (N.clipboard_change_count s).1 hcl hfull
        rw [watchStep_tick_some N t cn w s s2 b hpc h hr, hd]
      · intro sel s3 r hrcl hroom
        have hd := deliver_room
          { w with seen := w.seen ++ [(N.clipboard_change_count s).1],
                   pc := .sending b (N.clipboard_change_count s).1, recv := r } b
          (N.clipboard_change_count s).1 hrcl hroom
        rw [watchStep_sending N t cn sel _ s3 b (N.clipboard_change_count s).1 rfl, hd]
  · intro h s2 hr
    exact watchStep_tick_nil N t cn w s s2 hpc h hr
  · intro sel w2 s2
    exact watchStep_hist N t cn sel w2 s2
  · intro s0 cn0 evs
    exact (EmitsNonEmpty_run N t evs { task := watch t, cancelled := cn0, world := s0 }
      ⟨by intro b hb; simp [watch, Chan.make] at hb,
       by intro b c hpc2; simp [watch] at hpc2⟩).1

/-- C8 at a concrete input: the store holds the text [7] at change count 5, the
watch last observed 4, and the output channel is empty: the tick sends [7]
and records 5. -/
theorem watch_tick_behaviour_witness :
    watchStep storeNative FmtText false .tick
      { lastCount := 4, recv := Chan.make 1, pc := .selecting, seen := [] }
      { text := some [7], image := none, changes := 5 } =
    ({ lastCount := 5, recv := { cap := 1, buf := [[7]], closed := false, hist := [[7]] },
       pc := .selecting, seen := [5] },
     { text := some [7], image := none, changes := 5 }) :=
  ((watch_tick_behaviour storeNative FmtText false
    { lastCount := 4, recv := Chan.make 1, pc := .selecting, seen := [] }
    { text := some [7], image := none, changes := 5 } rfl).2.1 (by decide) [7]
    { text := some [7], image := none, changes := 5 } (by decide)).2.1 rfl (by decide)

/-! ## C7: cancellation of a watch -/

/-- At the select, the cancellation case closes the output channel and
returns. -/
theorem watch_cancel_at_select {σ : Type} (N : Native σ) (t : Format) (w : Watcher) (s : σ)
    (hpc : w.pc = .selecting) :
    (watchStep N t true .done w s).1.pc = .returned ∧
    (watchStep N t true .done w s).1.recv.closed = true := by
  rw [watchStep_done N t true w s hpc]
  exact ⟨rfl, rfl⟩

/-- A goroutine blocked in the send of a snapshot, on a full open channel,
stays there under every schedule in which the consumer does not receive,
cancelled or not. -/
theorem blocked_send_stays {σ : Type} (N : Native σ) (t : Format) (b : List Byte) (c : Int)
    (evs : List (WatchEvent σ)) (x : WatchSys σ) (hpc : x.task.pc = .sending b c)
    (hcl : x.task.recv.closed = false) (hfull : x.task.recv.cap ≤ x.task.recv.buf.length)
    (hev : ∀ e ∈ evs, WatchEvent.isConsume e = false) :
    (watchRun N t x evs).task = x.task := by
  induction evs generalizing x with
  | nil => rfl
  | cons e rest ih =>
    have he : WatchEvent.isConsume e = false := hev e (by simp)
    have hrest : ∀ e2 ∈ rest, WatchEvent.isConsume e2 = false := by
      intro e2 h2
      exact hev e2 (by simp [h2])
    have hstep : (watchEvent N t x e).task = x.task := by
      cases e with
      | run sel =>
        simp only [watchEvent]
        rw [watchStep_sending N t x.cancelled sel x.task x.world b c hpc,
          deliver_full x.task b c hcl hfull]
        rw [← hpc]
      | cancel => rfl
      | consume => simp [WatchEvent.isConsume] at he
      | env f => rfl
    have := ih (watchEvent N t x e) (by rw [hstep]; exact hpc) (by rw [hstep]; exact hcl)
      (by rw [hstep]; exact hfull) hrest
    simp only [watchRun, List.foldl_cons] at this ⊢
    rw [this, hstep]

/-- C7 (failing input): after the schedule above the context is cancelled and
the goroutine stands in the send of the second snapshot with the one-slot
channel full. Under every further schedule in which the consumer does not
receive, whatever select case is offered, the goroutine stays in the send: it
does not return and the output channel is not closed. -/
theorem watch_cancel_blocked_in_send :
    (watchRun storeNative FmtText
      { task := watch FmtText, cancelled := false, world := Store.empty } blockedSchedule).task
      = { lastCount := 1, recv := { cap := 1, buf := [[1]], closed := false, hist := [[1]] },
          pc := .sending [2] 2, seen := [1, 2] } ∧
    (watchRun storeNative FmtText
      { task := watch FmtText, cancelled := false, world := Store.empty }
      blockedSchedule).cancelled = true ∧
    ∀ evs : List (WatchEvent Store), (∀ e ∈ evs, WatchEvent.isConsume e = false) →
      (watchRun storeNative FmtText
        (watchRun storeNative FmtText
          { task := watch FmtText, cancelled := false, world := Store.empty } blockedSchedule)
        evs).task.pc = .sending [2] 2 ∧
      (watchRun storeNative FmtText
        (watchRun storeNative FmtText
          { task := watch FmtText, cancelled := false, world := Store.empty } blockedSchedule)
        evs).task.recv.closed = false := by
  have htask : (watchRun storeNative FmtText
      { task := watch FmtText, cancelled := false, world := Store.empty } blockedSchedule).task
      = { lastCount := 1, recv := { cap := 1, buf := [[1]], closed := false, hist := [[1]] },
          pc := .sending [2] 2, seen := [1, 2] } := by decide
  refine ⟨htask, by decide, ?_⟩
  intro evs hev
  rw [blocked_send_stays storeNative FmtText [2] 2 evs _ (by rw [htask]) (by rw [htask])
    (by rw [htask]; decide) hev, htask]
  exact ⟨rfl, rfl⟩

end Clipboard
